import Mathlib

/-!
Shallow embedding of the iptsd core: the IPTS device transport
(`src/ipts/control.cpp`) and the touch tracking / emission state machine
(`apps/daemon/touch.hpp`).  Machine integers are modelled as `Nat` with an
explicit `% 2 ^ 32` where the source uses `u32` arithmetic; `f64`
coordinates are modelled as `ℚ` (all transformations in the source are
exact affine operations followed by `std::round`).
-/

/-- Rounding as performed by C `std::round`: round half away from zero. -/
def cround (q : ℚ) : ℤ :=
  if q < 0 then -(⌊-q + 1 / 2⌋) else ⌊q + 1 / 2⌋

/-! ## Device transport (`IptsControl`) -/

/-- Mutable state of the transport: the locally stored doorbell counter
(`u32 current_doorbell` in `control.hpp`).  The fixed array of file handles is
represented implicitly: an acknowledgement for `files.at(i)` is recorded as
the buffer index `i`. -/
structure IptsControl where
  current_doorbell : ℕ
deriving DecidableEq, Repr

namespace IptsControl

/-- `IptsControl::flush`: send feedback for each of the `IPTS_BUFFERS` (= `N`)
buffers, in order `0, 1, …, N-1`.  The per-file `send_feedback(int)` does not
touch the counter, so the state is returned unchanged; the list records which
buffers were acknowledged. -/
def flush (N : ℕ) (s : IptsControl) : IptsControl × List ℕ :=
  (s, List.range N)

/-- `IptsControl::send_feedback()` (public overload): acknowledge the buffer
selected by `current_doorbell % IPTS_BUFFERS`, then increment the counter
(`u32` arithmetic, hence `% 2 ^ 32`). -/
def send_feedback (N : ℕ) (s : IptsControl) : IptsControl × List ℕ :=
  ({ current_doorbell := (s.current_doorbell + 1) % 2 ^ 32 },
   [s.current_doorbell % N])

/-- `IptsControl::doorbell`: given the hardware doorbell value `hw` read from
the device, if the stored counter exceeds `hw` the device has been reset, so
all buffers are flushed and the counter snaps to `hw`; `hw` is returned in
both cases.  Result: (new state, returned value, acknowledged buffers). -/
def doorbell (N : ℕ) (s : IptsControl) (hw : ℕ) : IptsControl × ℕ × List ℕ :=
  if s.current_doorbell > hw then
    let r := flush N s
    ({ current_doorbell := hw }, hw, r.2)
  else
    (s, hw, [])

end IptsControl

/-! ## Touch device data model (`apps/daemon/touch.hpp`) -/

/-- A detected contact (`contacts::Contact<f64>`), as consumed by the touch
device: optional tracking index, optional validity / stability flags
(absent defaults to true at the point of use), normalized mean position,
size and orientation. -/
structure Contact where
  index : Option ℕ
  valid : Option Bool
  stable : Option Bool
  mean : ℚ × ℚ
  size : ℚ × ℚ
  orientation : ℚ
deriving DecidableEq, Repr

/-- The slice of the daemon configuration (`core::Config`) the touch device
reads. -/
structure Config where
  touch_disable_on_palm : Bool
  invert_x : Bool
  invert_y : Bool
deriving DecidableEq, Repr

/-- The compile-time device constants `IPTS_MAX_X`, `IPTS_MAX_Y`,
`IPTS_DIAGONAL` (their header is outside the covered sources, so the values
are kept abstract). -/
structure Params where
  maxX : ℚ
  maxY : ℚ
  diagonal : ℚ
deriving DecidableEq, Repr

/-- Events written to the uinput sink, one constructor per
`(type, code)` pair the touch device emits. -/
inductive Event where
  | absMtSlot (v : ℤ)
  | absMtTrackingId (v : ℤ)
  | absMtPositionX (v : ℤ)
  | absMtPositionY (v : ℤ)
  | absMtOrientation (v : ℤ)
  | absMtTouchMajor (v : ℤ)
  | absMtTouchMinor (v : ℤ)
  | absX (v : ℤ)
  | absY (v : ℤ)
  | btnTouch (v : ℤ)
  | syn
deriving DecidableEq, Repr

/-- Mutable state of `TouchDevice`.  The three `std::set<usize>` members are
modelled as strictly sorted lists (the iteration order of `std::set`). -/
structure TouchState where
  current : List ℕ
  last : List ℕ
  lift : List ℕ
  single_index : ℕ
  enabled : Bool
deriving DecidableEq, Repr

/-! ### Ordered-set primitives (`std::set` insertion and `std::set_difference`) -/

/-- Insert into a strictly sorted list, keeping it sorted and duplicate
free (the effect of `std::set::insert`). -/
def setInsert (x : ℕ) : List ℕ → List ℕ
  | [] => [x]
  | y :: ys =>
    if x < y then x :: y :: ys
    else if x = y then y :: ys
    else y :: setInsert x ys

/-- Build the `std::set` of a list of keys by repeated insertion. -/
def buildSet (xs : List ℕ) : List ℕ :=
  xs.foldl (fun s x => setInsert x s) []

/-- `std::set_difference` on sorted duplicate-free ranges: the elements of
`a` that are not in `b`, in order. -/
def setDiff (a b : List ℕ) : List ℕ :=
  a.filter (fun x => decide (x ∉ b))

namespace TouchDevice

/-- `TouchDevice::lift_multitouch`: slot select followed by tracking id −1. -/
def lift_multitouch (index : ℤ) : List Event :=
  [Event.absMtSlot index, Event.absMtTrackingId (-1)]

/-- `TouchDevice::emit_multitouch`: apply the configured axis inversions
(and the orientation flip when exactly one axis is inverted), convert to
device units with `std::round`, and emit the seven-event contact record. -/
def emit_multitouch (cfg : Config) (p : Params) (c : Contact) : List Event :=
  let mx := if cfg.invert_x then 1 - c.mean.1 else c.mean.1
  let my := if cfg.invert_y then 1 - c.mean.2 else c.mean.2
  let ori := if cfg.invert_x ≠ cfg.invert_y then 1 - c.orientation else c.orientation
  let index : ℤ := (c.index.getD 0 : ℕ)
  [Event.absMtSlot index,
   Event.absMtTrackingId index,
   Event.absMtPositionX (cround (mx * p.maxX)),
   Event.absMtPositionY (cround (my * p.maxY)),
   Event.absMtOrientation (cround (ori * 180)),
   Event.absMtTouchMajor (cround (max c.size.1 c.size.2 * p.diagonal)),
   Event.absMtTouchMinor (cround (min c.size.1 c.size.2 * p.diagonal))]

/-- `TouchDevice::lift_singletouch`. -/
def lift_singletouch : List Event :=
  [Event.btnTouch 0]

/-- `TouchDevice::emit_singletouch`: axis inversion, unit conversion, then
touch-down key plus absolute position. -/
def emit_singletouch (cfg : Config) (p : Params) (c : Contact) : List Event :=
  let mx := if cfg.invert_x then 1 - c.mean.1 else c.mean.1
  let my := if cfg.invert_y then 1 - c.mean.2 else c.mean.2
  [Event.btnTouch 1,
   Event.absX (cround (mx * p.maxX)),
   Event.absY (cround (my * p.maxY))]

/-- `TouchDevice::search_lifted`: swap `m_current` into `m_last`, rebuild
`m_current` from the indices carried by the incoming contacts, and set
`m_lift` to the ordered set difference `m_last ∖ m_current`. -/
def search_lifted (s : TouchState) (contacts : List Contact) : TouchState :=
  let last := s.current
  let current := buildSet (contacts.filterMap (fun c => c.index))
  { s with current := current, last := last, lift := setDiff last current }

/-- `TouchDevice::is_blocked`: palm blocking is configured and some contact
has `valid == false` (`value_or(true)`). -/
def is_blocked (cfg : Config) (contacts : List Contact) : Bool :=
  if !cfg.touch_disable_on_palm then false
  else contacts.any (fun c => !(c.valid.getD true))

/-- The events `TouchDevice::process_multitouch` emits for one contact:
nothing without an index or for an unstable update, a full record when
valid, an immediate lift when invalid. -/
def mt_contact_events (cfg : Config) (p : Params) (c : Contact) : List Event :=
  match c.index with
  | none => []
  | some i =>
    if !(c.stable.getD true) then []
    else if c.valid.getD true then emit_multitouch cfg p c
    else lift_multitouch (i : ℕ)

/-- `TouchDevice::process_multitouch`: the per-contact pass followed by a
lift for every index in `m_lift`. -/
def process_multitouch (cfg : Config) (p : Params) (s : TouchState)
    (contacts : List Contact) : List Event :=
  (contacts.map (mt_contact_events cfg p)).flatten
    ++ (s.lift.map (fun i => lift_multitouch (i : ℕ))).flatten

/-- Outcome of the first loop in `TouchDevice::process_singletouch`:
fall through to the lift (loop exhausted or `break`), return with no
emission (unstable), or emit the found contact and return. -/
inductive STOutcome where
  | fallthrough
  | stop
  | emit (c : Contact)
deriving DecidableEq, Repr

/-- First loop of `process_singletouch`: look for the contact whose index
equals `m_single_index`; `break` if the device is disabled or the contact
invalid, return silently if unstable, emit otherwise. -/
def st_loop1 (enabled : Bool) (single : ℕ) : List Contact → STOutcome
  | [] => STOutcome.fallthrough
  | c :: rest =>
    if c.index ≠ some single then st_loop1 enabled single rest
    else if !enabled || !(c.valid.getD true) then STOutcome.fallthrough
    else if !(c.stable.getD true) then STOutcome.stop
    else STOutcome.emit c

/-- Second loop of `process_singletouch` (reselection): the first contact
whose index differs from `m_single_index` and whose validity is not false is
adopted via `index.value_or(0)`. -/
def st_loop2 (single : ℕ) : List Contact → Option ℕ
  | [] => none
  | c :: rest =>
    if c.index = some single then st_loop2 single rest
    else if !(c.valid.getD true) then st_loop2 single rest
    else some (c.index.getD 0)

/-- `TouchDevice::process_singletouch`, faithful to the source: the emit
loop is guarded by `if (!reset)` where `reset` is true when
`m_single_index` is NOT in `m_lift`; on fall-through a single-touch lift is
emitted and, when enabled, a new index is adopted.  Result: (new state,
emitted events). -/
def process_singletouch (cfg : Config) (p : Params) (s : TouchState)
    (contacts : List Contact) : TouchState × List Event :=
  let reset := !(s.lift.contains s.single_index)
  let outcome := if !reset then st_loop1 s.enabled s.single_index contacts
                 else STOutcome.fallthrough
  match outcome with
  | STOutcome.emit c => (s, emit_singletouch cfg p c)
  | STOutcome.stop => (s, [])
  | STOutcome.fallthrough =>
    if !s.enabled then (s, lift_singletouch)
    else
      match st_loop2 s.single_index contacts with
      | some i => ({ s with single_index := i }, lift_singletouch)
      | none => (s, lift_singletouch)

/-- `TouchDevice::lift_all`: an explicit slot select plus a multitouch lift
for every index in `m_current` and in `m_last`, then a single-touch lift. -/
def lift_all (s : TouchState) : List Event :=
  (s.current.map (fun i => Event.absMtSlot (i : ℕ) :: lift_multitouch (i : ℕ))).flatten
    ++ (s.last.map (fun i => Event.absMtSlot (i : ℕ) :: lift_multitouch (i : ℕ))).flatten
    ++ lift_singletouch

/-- `TouchDevice::sync`. -/
def sync : List Event :=
  [Event.syn]

/-- `TouchDevice::update`: ignore everything while disabled; otherwise run
lift detection, then either lift everything (palm block) or process the
multitouch and singletouch pipelines; terminate with a sync. -/
def update (cfg : Config) (p : Params) (s : TouchState)
    (contacts : List Contact) : TouchState × List Event :=
  if !s.enabled then (s, [])
  else
    let s1 := search_lifted s contacts
    if is_blocked cfg contacts then (s1, lift_all s1 ++ sync)
    else
      let mt := process_multitouch cfg p s1 contacts
      let r := process_singletouch cfg p s1 contacts
      (r.1, mt ++ r.2 ++ sync)

/-- `TouchDevice::disable`: clear the enabled flag, lift everything, sync,
then clear the three tracking sets. -/
def disable (s : TouchState) : TouchState × List Event :=
  let s1 : TouchState := { s with enabled := false }
  (({ s1 with current := [], last := [], lift := [] }), lift_all s1 ++ sync)

/-- `TouchDevice::enable`. -/
def enable (s : TouchState) : TouchState :=
  { s with enabled := true }

/-- Run `update` over a sequence of frames, collecting each frame's emitted
events. -/
def runFrames (cfg : Config) (p : Params) :
    TouchState → List (List Contact) → TouchState × List (List Event)
  | s, [] => (s, [])
  | s, f :: fs =>
    let r := update cfg p s f
    let rest := runFrames cfg p r.1 fs
    (rest.1, r.2 :: rest.2)

end TouchDevice

/-! ### Extraction of multitouch (slot, tracking id) pairs from an event
stream.  Both an active emission and a lift consist of a slot select
immediately followed by a tracking id, so adjacent pairs recover exactly the
per-slot updates of a frame. -/

/-- Scanner state: the pending slot value when the previous event was a
slot select. -/
def mtPairsAux : Option ℤ → List Event → List (ℤ × ℤ)
  | _, [] => []
  | some s, Event.absMtTrackingId t :: rest => (s, t) :: mtPairsAux none rest
  | _, Event.absMtSlot s2 :: rest => mtPairsAux (some s2) rest
  | _, _ :: rest => mtPairsAux none rest

/-- Collect each `absMtSlot` event together with the `absMtTrackingId`
event immediately following it. -/
def mtPairs (l : List Event) : List (ℤ × ℤ) :=
  mtPairsAux none l

/-- Tracking ids reported as active (non-negative) in an event stream. -/
def activeIds (evs : List Event) : List ℤ :=
  (mtPairs evs).filterMap (fun q => if 0 ≤ q.2 then some q.2 else none)

/-- Slots reported as lifted (tracking id −1) in an event stream. -/
def liftSlots (evs : List Event) : List ℤ :=
  (mtPairs evs).filterMap (fun q => if q.2 = -1 then some q.1 else none)

/-! ## Helper lemmas about the ordered-set primitives -/

theorem mem_setInsert (a x : ℕ) (l : List ℕ) :
    a ∈ setInsert x l ↔ a = x ∨ a ∈ l := by
  induction l with
  | nil => simp [setInsert]
  | cons y ys ih =>
    by_cases h1 : x < y
    · simp [setInsert, h1]
    · by_cases h2 : x = y
      · subst h2
        simp [setInsert, h1]
      · simp [setInsert, h1, h2, ih]
        tauto

theorem sorted_setInsert (x : ℕ) (l : List ℕ) (h : List.Sorted (· < ·) l) :
    List.Sorted (· < ·) (setInsert x l) := by
  induction l with
  | nil => simp [setInsert]
  | cons y ys ih =>
    rw [List.sorted_cons] at h
    by_cases h1 : x < y
    · simp only [setInsert, if_pos h1]
      rw [List.sorted_cons]
      refine ⟨?_, ?_⟩
      · intro b hb
        rcases List.mem_cons.mp hb with hb | hb
        · exact hb ▸ h1
        · exact h1.trans (h.1 b hb)
      · rw [List.sorted_cons]
        exact h
    · by_cases h2 : x = y
      · simp only [setInsert, if_neg h1, if_pos h2]
        rw [List.sorted_cons]
        exact h
      · simp only [setInsert, if_neg h1, if_neg h2]
        rw [List.sorted_cons]
        refine ⟨?_, ih h.2⟩
        intro b hb
        rcases (mem_setInsert b x ys).mp hb with hb | hb
        · subst hb
          omega
        · exact h.1 b hb

theorem mem_foldl_setInsert (a : ℕ) (xs acc : List ℕ) :
    a ∈ xs.foldl (fun s x => setInsert x s) acc ↔ a ∈ acc ∨ a ∈ xs := by
  induction xs generalizing acc with
  | nil => simp
  | cons x xs ih =>
    rw [List.foldl_cons, ih, mem_setInsert]
    simp
    tauto

theorem sorted_foldl_setInsert (xs acc : List ℕ) (h : List.Sorted (· < ·) acc) :
    List.Sorted (· < ·) (xs.foldl (fun s x => setInsert x s) acc) := by
  induction xs generalizing acc with
  | nil => exact h
  | cons x xs ih => exact ih _ (sorted_setInsert x acc h)

theorem mem_buildSet (a : ℕ) (xs : List ℕ) : a ∈ buildSet xs ↔ a ∈ xs := by
  rw [buildSet, mem_foldl_setInsert]
  simp

theorem sorted_buildSet (xs : List ℕ) : List.Sorted (· < ·) (buildSet xs) :=
  sorted_foldl_setInsert xs [] (by simp)

theorem nodup_buildSet (xs : List ℕ) : (buildSet xs).Nodup :=
  (sorted_buildSet xs).nodup

theorem mem_setDiff (a : ℕ) (l r : List ℕ) :
    a ∈ setDiff l r ↔ a ∈ l ∧ a ∉ r := by
  rw [setDiff, List.mem_filter]
  simp

theorem sorted_setDiff (l r : List ℕ) (h : List.Sorted (· < ·) l) :
    List.Sorted (· < ·) (setDiff l r) :=
  List.Pairwise.filter _ h

theorem count_setDiff (a : ℕ) (l r : List ℕ) (h : l.Nodup) :
    (setDiff l r).count a = if a ∈ l ∧ a ∉ r then 1 else 0 := by
  have hnd : (setDiff l r).Nodup := List.Nodup.filter _ h
  by_cases hm : a ∈ l ∧ a ∉ r
  · rw [if_pos hm]
    exact List.count_eq_one_of_mem hnd ((mem_setDiff a l r).mpr hm)
  · rw [if_neg hm]
    exact List.count_eq_zero.mpr (fun hc => hm ((mem_setDiff a l r).mp hc))

/-! ## Concrete fixtures used by witnesses and counterexamples -/

/-- A configuration with palm blocking and both inversions off. -/
def cfg0 : Config :=
  { touch_disable_on_palm := false, invert_x := false, invert_y := false }

/-- Device constants for concrete evaluations. -/
def p0 : Params := { maxX := 1000, maxY := 1000, diagonal := 1000 }

/-- A disabled device state that still holds tracked indices. -/
def sC1 : TouchState :=
  { current := [1], last := [2], lift := [], single_index := 0, enabled := false }

/-- An enabled state tracking indices 1 and 2. -/
def sC3 : TouchState :=
  { current := [1, 2], last := [], lift := [], single_index := 0, enabled := true }

/-- One tracked, valid, stable contact with index 2. -/
def csC3 : List Contact :=
  [{ index := some 2, valid := none, stable := none, mean := (0, 0),
     size := (0, 0), orientation := 0 }]

/-! ## Claims about the device transport -/

/-- Claim C2: the transport's doorbell returns the hardware value; when the
hardware value is strictly below the stored counter exactly one flush of all
`N` buffers happens and the counter snaps to the hardware value, otherwise no
flush happens and the counter is unchanged; in both cases the stored counter
never exceeds the hardware value afterwards (`min d hw ≤ hw`). -/
theorem C2_doorbell_resync (N d hw : ℕ) :
    (IptsControl.doorbell N { current_doorbell := d } hw).2.1 = hw
    ∧ (IptsControl.doorbell N { current_doorbell := d } hw).2.2
        = (if hw < d then List.range N else [])
    ∧ (IptsControl.doorbell N { current_doorbell := d } hw).1.current_doorbell
        = min d hw
    ∧ (IptsControl.doorbell N { current_doorbell := d } hw).1.current_doorbell
        ≤ hw := by
  by_cases h : hw < d
  · have hd : IptsControl.doorbell N { current_doorbell := d } hw
        = ({ current_doorbell := hw }, hw, List.range N) := by
      simp [IptsControl.doorbell, IptsControl.flush, h]
    rw [hd, if_pos h]
    refine ⟨rfl, rfl, ?_, le_refl hw⟩
    show hw = min d hw
    omega
  · have hd : IptsControl.doorbell N { current_doorbell := d } hw
        = ({ current_doorbell := d }, hw, []) := by
      simp [IptsControl.doorbell, h]
    rw [hd, if_neg h]
    refine ⟨rfl, rfl, ?_, ?_⟩
    · show d = min d hw
      omega
    · show d ≤ hw
      omega

/-- Claim C10: `flush` acknowledges every one of the `N` buffers but leaves
the stored doorbell counter unchanged, while the public `send_feedback`
acknowledges exactly the currently selected buffer
(`current_doorbell % N`) and advances the counter by exactly one. -/
theorem C10_flush_and_feedback (N d : ℕ) (h : d + 1 < 2 ^ 32) :
    (IptsControl.flush N { current_doorbell := d }).1.current_doorbell = d
    ∧ (IptsControl.flush N { current_doorbell := d }).2 = List.range N
    ∧ (IptsControl.send_feedback N { current_doorbell := d }).1.current_doorbell
        = d + 1
    ∧ (IptsControl.send_feedback N { current_doorbell := d }).2 = [d % N] := by
  refine ⟨rfl, rfl, ?_, rfl⟩
  simp only [IptsControl.send_feedback]
  exact Nat.mod_eq_of_lt h

/-- Witness for C10 at `N = 16`, `d = 5`. -/
theorem C10_flush_and_feedback_witness :
    (IptsControl.flush 16 { current_doorbell := 5 }).1.current_doorbell = 5
    ∧ (IptsControl.flush 16 { current_doorbell := 5 }).2 = List.range 16
    ∧ (IptsControl.send_feedback 16 { current_doorbell := 5 }).1.current_doorbell
        = 6
    ∧ (IptsControl.send_feedback 16 { current_doorbell := 5 }).2 = [5] :=
  C10_flush_and_feedback 16 5 (by decide)

/-! ## Claims about the touch state machine -/

/-- Claim C1 counterexample: on a disabled state that still tracks index 1
(current) and index 2 (previous), `update` emits no event at all — no
multi-touch lift, no single-touch lift and no sync — and does not run the
tracker update (the state is returned unchanged), contradicting the claim
that lifts and a sync are emitted while disabled. -/
theorem C1_counterexample :
    sC1.enabled = false
    ∧ (TouchDevice.update cfg0 p0 sC1 []).2 = []
    ∧ (TouchDevice.update cfg0 p0 sC1 []).1 = sC1 := by
  decide

/-- Claim C1, amended: while the device is disabled, `update` returns
immediately: the tracker state is left untouched and no event whatsoever
(in particular neither a lift nor a sync) is emitted. -/
theorem C1_disabled_update_noop (cfg : Config) (p : Params) (s : TouchState)
    (contacts : List Contact) (h : s.enabled = false) :
    TouchDevice.update cfg p s contacts = (s, []) := by
  simp [TouchDevice.update, h]

/-- Witness for the amended C1 at a concrete disabled state. -/
theorem C1_disabled_update_noop_witness :
    TouchDevice.update cfg0 p0 sC1 [] = (sC1, []) :=
  C1_disabled_update_noop cfg0 p0 sC1 [] rfl

/-- Claim C9: a second `disable()` right after a first one emits no
multi-touch lift (the tracking sets are already empty), only the
single-touch lift followed by the terminating sync, and leaves the tracking
state empty and disabled. -/
theorem C9_disable_idempotent (s : TouchState) :
    (TouchDevice.disable (TouchDevice.disable s).1).2
        = [Event.btnTouch 0, Event.syn]
    ∧ (TouchDevice.disable (TouchDevice.disable s).1).1.current = []
    ∧ (TouchDevice.disable (TouchDevice.disable s).1).1.last = []
    ∧ (TouchDevice.disable (TouchDevice.disable s).1).1.lift = []
    ∧ (TouchDevice.disable (TouchDevice.disable s).1).1.enabled = false := by
  simp [TouchDevice.disable, TouchDevice.lift_all, TouchDevice.lift_singletouch,
    TouchDevice.sync]

/-- Claim C3: after a tracker update, `previous` is the old `current`,
`current` is exactly the set of indices carried by the incoming contacts,
`lifted` is the ascending set difference `previous ∖ current`, and every
index that disappeared occurs exactly once in it — an index present in both
frames never occurs (count 0), regardless of the contact's flags. -/
theorem C3_tracker_update (s : TouchState) (contacts : List Contact)
    (hs : List.Sorted (· < ·) s.current) :
    (TouchDevice.search_lifted s contacts).last = s.current
    ∧ (∀ i : ℕ, i ∈ (TouchDevice.search_lifted s contacts).current ↔
        i ∈ contacts.filterMap (fun c => c.index))
    ∧ List.Sorted (· < ·) (TouchDevice.search_lifted s contacts).lift
    ∧ (∀ i : ℕ, ((TouchDevice.search_lifted s contacts).lift).count i =
        if i ∈ s.current ∧ i ∉ contacts.filterMap (fun c => c.index)
        then 1 else 0) := by
  refine ⟨rfl, fun i => mem_buildSet i _, sorted_setDiff _ _ hs, fun i => ?_⟩
  have h1 := count_setDiff i s.current
    (buildSet (contacts.filterMap (fun c => c.index))) hs.nodup
  have h2 : (i ∈ s.current
        ∧ i ∉ buildSet (contacts.filterMap (fun c => c.index)))
      ↔ (i ∈ s.current ∧ i ∉ contacts.filterMap (fun c => c.index)) := by
    rw [mem_buildSet]
  show (setDiff s.current
      (buildSet (contacts.filterMap (fun c => c.index)))).count i = _
  rw [h1, if_congr h2 rfl rfl]

/-- Witness for C3: state tracking {1, 2}, one incoming contact with index 2:
the old current becomes previous and index 1 is lifted exactly once. -/
theorem C3_tracker_update_witness :
    (TouchDevice.search_lifted sC3 csC3).last = [1, 2]
    ∧ ((TouchDevice.search_lifted sC3 csC3).lift).count 1 = 1 := by
  have h := C3_tracker_update sC3 csC3 (by decide)
  refine ⟨h.1, ?_⟩
  rw [h.2.2.2 1]
  decide

/-! ## Helper lemmas about contacts without an index -/

theorem filterMap_index_filter (contacts : List Contact) :
    (contacts.filter (fun c => c.index.isSome)).filterMap (fun c => c.index)
      = contacts.filterMap (fun c => c.index) := by
  induction contacts with
  | nil => rfl
  | cons c rest ih =>
    cases h : c.index with
    | none => simp [List.filter_cons, List.filterMap_cons, h, ih]
    | some i => simp [List.filter_cons, List.filterMap_cons, h, ih]

theorem mt_flatten_filter (cfg : Config) (p : Params) (contacts : List Contact) :
    ((contacts.filter (fun c => c.index.isSome)).map
        (TouchDevice.mt_contact_events cfg p)).flatten
      = (contacts.map (TouchDevice.mt_contact_events cfg p)).flatten := by
  induction contacts with
  | nil => rfl
  | cons c rest ih =>
    cases h : c.index with
    | none => simp [List.filter_cons, h, TouchDevice.mt_contact_events, ih]
    | some i => simp [List.filter_cons, h, ih]

theorem st_loop1_filter (e : Bool) (single : ℕ) (contacts : List Contact) :
    TouchDevice.st_loop1 e single (contacts.filter (fun c => c.index.isSome))
      = TouchDevice.st_loop1 e single contacts := by
  induction contacts with
  | nil => rfl
  | cons c rest ih =>
    cases h : c.index with
    | none =>
      have hne : c.index ≠ some single := by simp [h]
      simp [List.filter_cons, h, TouchDevice.st_loop1, hne, ih]
    | some i =>
      simp only [List.filter_cons, h, Option.isSome_some, if_true]
      show TouchDevice.st_loop1 e single (c :: _) = _
      rw [TouchDevice.st_loop1, TouchDevice.st_loop1, ih]

namespace TouchDevice

/-- The events emitted by `process_singletouch`, read off the loop-1 outcome:
an emitted contact record, silence (unstable), or the single-touch lift. -/
def st_events (cfg : Config) (p : Params) (s : TouchState)
    (contacts : List Contact) : List Event :=
  match (if s.lift.contains s.single_index
      then st_loop1 s.enabled s.single_index contacts
      else STOutcome.fallthrough) with
  | STOutcome.emit c => emit_singletouch cfg p c
  | STOutcome.stop => []
  | STOutcome.fallthrough => lift_singletouch

theorem process_singletouch_events (cfg : Config) (p : Params) (s : TouchState)
    (contacts : List Contact) :
    (process_singletouch cfg p s contacts).2 = st_events cfg p s contacts := by
  unfold process_singletouch st_events
  cases hc : s.lift.contains s.single_index with
  | false =>
    simp only [hc, Bool.not_false, Bool.not_true, Bool.false_eq_true, if_false]
    by_cases he : s.enabled
    · simp only [he, Bool.not_true, Bool.false_eq_true, if_false]
      cases st_loop2 s.single_index contacts <;> rfl
    · simp only [Bool.not_eq_true] at he
      simp [he]
  | true =>
    simp only [hc, Bool.not_true, Bool.not_false, if_true]
    cases st_loop1 s.enabled s.single_index contacts with
    | emit c => rfl
    | stop => rfl
    | fallthrough =>
      by_cases he : s.enabled
      · simp only [he, Bool.not_true, Bool.false_eq_true, if_false]
        cases st_loop2 s.single_index contacts <;> rfl
      · simp only [Bool.not_eq_true] at he
        simp [he]

end TouchDevice

/-- An enabled state whose single-touch pointer is index 3 and whose
tracking sets are empty. -/
def sC4 : TouchState :=
  { current := [], last := [], lift := [], single_index := 3, enabled := true }

/-- A valid, stable contact that carries no tracking index. -/
def cNoIdx : Contact :=
  { index := none, valid := none, stable := none, mean := (0, 0),
    size := (0, 0), orientation := 0 }

/-- A stable contact with index 0, used alongside the indexless ones. -/
def cIdxC4 : Contact :=
  { index := some 0, valid := some true, stable := some true, mean := (0, 0),
    size := (0, 0), orientation := 0 }

/-- A contact that carries no tracking index and is flagged invalid. -/
def cNoIdxInv : Contact :=
  { index := none, valid := some false, stable := none, mean := (0, 0),
    size := (0, 0), orientation := 0 }

/-- Palm blocking enabled, no inversion (for the C4 counterexample). -/
def cfgC4 : Config :=
  { touch_disable_on_palm := true, invert_x := false, invert_y := false }

/-- Claim C4 counterexample: contacts without an index are not inert.
First, an enabled update whose only contact lacks an index changes the
single-touch selection state — the reselection loop adopts the indexless
contact via `index.value_or(0)`, moving `m_single_index` from 3 to 0.
Second, `is_blocked` scans all contacts with no index check, so an indexless
`valid = false` contact flips palm blocking and suppresses the active
emission of an indexed valid contact in the same frame (tracking id 0 is
emitted without it and not with it). -/
theorem C4_counterexample :
    sC4.single_index = 3
    ∧ (TouchDevice.update cfg0 p0 sC4 [cNoIdx]).1.single_index = 0
    ∧ TouchDevice.is_blocked cfgC4 [cIdxC4, cNoIdxInv] = true
    ∧ TouchDevice.is_blocked cfgC4 [cIdxC4] = false
    ∧ (TouchDevice.update cfgC4 p0 sC4 [cIdxC4, cNoIdxInv]).2.count
        (Event.absMtTrackingId 0) = 0
    ∧ (TouchDevice.update cfgC4 p0 sC4 [cIdxC4]).2.count
        (Event.absMtTrackingId 0) = 1 := by
  decide

/-- Claim C4, amended: contacts lacking an index are never inserted into the
tracking sets, never appear in or influence the lift set, and are skipped by
both the multi-touch per-contact pass and the single-touch pass (removing
them changes neither the tracker update, nor the multitouch pass output, nor
the singletouch pass output).  They are, however, not inert at the frame
level: an indexless contact with `valid == false` still counts toward palm
blocking in `is_blocked`, and the single-touch reselection loop can adopt a
valid indexless contact via `index.value_or(0)`, setting `single_touch_index`
to 0. -/
theorem C4_no_index_never_tracked_or_emitted (cfg : Config) (p : Params)
    (s : TouchState) (contacts : List Contact) :
    TouchDevice.search_lifted s (contacts.filter (fun c => c.index.isSome))
        = TouchDevice.search_lifted s contacts
    ∧ TouchDevice.process_multitouch cfg p s
          (contacts.filter (fun c => c.index.isSome))
        = TouchDevice.process_multitouch cfg p s contacts
    ∧ (TouchDevice.process_singletouch cfg p s
          (contacts.filter (fun c => c.index.isSome))).2
        = (TouchDevice.process_singletouch cfg p s contacts).2 := by
  refine ⟨?_, ?_, ?_⟩
  · unfold TouchDevice.search_lifted
    rw [filterMap_index_filter]
  · unfold TouchDevice.process_multitouch
    rw [mt_flatten_filter]
  · rw [TouchDevice.process_singletouch_events,
      TouchDevice.process_singletouch_events]
    unfold TouchDevice.st_events
    rw [st_loop1_filter]

/-! ## Helper lemmas about `lift_all` and blocked frames -/

theorem mem_lift_all (s : TouchState) (e : Event) :
    e ∈ TouchDevice.lift_all s ↔
      (∃ i : ℕ, (i ∈ s.current ∨ i ∈ s.last) ∧
        (e = Event.absMtSlot (i : ℕ) ∨ e = Event.absMtTrackingId (-1)))
      ∨ e = Event.btnTouch 0 := by
  simp only [TouchDevice.lift_all, TouchDevice.lift_multitouch,
    TouchDevice.lift_singletouch, List.mem_append, List.mem_flatten,
    List.mem_map]
  constructor
  · rintro ((⟨l, ⟨i, hi, rfl⟩, hl⟩ | ⟨l, ⟨i, hi, rfl⟩, hl⟩) | h)
    · simp only [List.mem_cons, List.not_mem_nil, or_false] at hl
      rcases hl with h | h | h
      · exact Or.inl ⟨i, Or.inl hi, Or.inl h⟩
      · exact Or.inl ⟨i, Or.inl hi, Or.inl h⟩
      · exact Or.inl ⟨i, Or.inl hi, Or.inr h⟩
    · simp only [List.mem_cons, List.not_mem_nil, or_false] at hl
      rcases hl with h | h | h
      · exact Or.inl ⟨i, Or.inr hi, Or.inl h⟩
      · exact Or.inl ⟨i, Or.inr hi, Or.inl h⟩
      · exact Or.inl ⟨i, Or.inr hi, Or.inr h⟩
    · simp at h
      exact Or.inr h
  · rintro (⟨i, hi | hi, he | he⟩ | he)
    · exact Or.inl (Or.inl ⟨_, ⟨i, hi, rfl⟩, by simp [he]⟩)
    · exact Or.inl (Or.inl ⟨_, ⟨i, hi, rfl⟩, by simp [he]⟩)
    · exact Or.inl (Or.inr ⟨_, ⟨i, hi, rfl⟩, by simp [he]⟩)
    · exact Or.inl (Or.inr ⟨_, ⟨i, hi, rfl⟩, by simp [he]⟩)
    · exact Or.inr (by simp [he])

theorem update_blocked_eq (cfg : Config) (p : Params) (s : TouchState)
    (contacts : List Contact) (he : s.enabled = true)
    (hb : TouchDevice.is_blocked cfg contacts = true) :
    TouchDevice.update cfg p s contacts
      = (TouchDevice.search_lifted s contacts,
         TouchDevice.lift_all (TouchDevice.search_lifted s contacts)
           ++ [Event.syn]) := by
  unfold TouchDevice.update
  simp [he, hb, TouchDevice.sync]

/-- Claim C5: an enabled frame is palm-blocked iff palm-blocking is
configured and some contact has `valid == false`; a blocked frame lifts
every index in `current` and in `previous`, lifts the single-touch pointer,
emits exactly one terminating sync, emits no contact update (no position
event, no non-negative tracking id, no touch-down), and leaves the
single-touch selection state untouched. -/
theorem C5_palm_blocked (cfg : Config) (p : Params) (s : TouchState)
    (contacts : List Contact) (he : s.enabled = true)
    (hpalm : cfg.touch_disable_on_palm = true)
    (hinv : ∃ c ∈ contacts, c.valid = some false) :
    TouchDevice.is_blocked cfg contacts = true
    ∧ (TouchDevice.update cfg p s contacts).1.single_index = s.single_index
    ∧ (∀ i : ℕ,
        (i ∈ (TouchDevice.search_lifted s contacts).current
          ∨ i ∈ (TouchDevice.search_lifted s contacts).last) →
        Event.absMtSlot (i : ℕ) ∈ (TouchDevice.update cfg p s contacts).2
          ∧ Event.absMtTrackingId (-1) ∈ (TouchDevice.update cfg p s contacts).2)
    ∧ Event.btnTouch 0 ∈ (TouchDevice.update cfg p s contacts).2
    ∧ (∀ v : ℤ, Event.absMtPositionX v ∉ (TouchDevice.update cfg p s contacts).2)
    ∧ (∀ v : ℤ, 0 ≤ v →
        Event.absMtTrackingId v ∉ (TouchDevice.update cfg p s contacts).2)
    ∧ Event.btnTouch 1 ∉ (TouchDevice.update cfg p s contacts).2
    ∧ (TouchDevice.update cfg p s contacts).2.count Event.syn = 1
    ∧ (TouchDevice.update cfg p s contacts).2.getLast? = some Event.syn := by
  have hb : TouchDevice.is_blocked cfg contacts = true := by
    obtain ⟨c, hc, hcv⟩ := hinv
    unfold TouchDevice.is_blocked
    rw [hpalm]
    simp only [Bool.not_true, Bool.false_eq_true, if_false]
    exact List.any_eq_true.mpr ⟨c, hc, by rw [hcv]; rfl⟩
  have hu := update_blocked_eq cfg p s contacts he hb
  rw [hu]
  have hsyn : Event.syn ∉ TouchDevice.lift_all (TouchDevice.search_lifted s contacts) := by
    rw [mem_lift_all]
    rintro (⟨i, _, h | h⟩ | h) <;> cases h
  refine ⟨hb, rfl, ?_, ?_, ?_, ?_, ?_, ?_, ?_⟩
  · intro i hi
    constructor
    · exact List.mem_append.mpr (Or.inl ((mem_lift_all _ _).mpr
        (Or.inl ⟨i, hi, Or.inl rfl⟩)))
    · exact List.mem_append.mpr (Or.inl ((mem_lift_all _ _).mpr
        (Or.inl ⟨i, hi, Or.inr rfl⟩)))
  · exact List.mem_append.mpr (Or.inl ((mem_lift_all _ _).mpr (Or.inr rfl)))
  · intro v hv
    rcases List.mem_append.mp hv with h | h
    · rw [mem_lift_all] at h
      rcases h with ⟨i, _, h | h⟩ | h <;> cases h
    · simp at h
  · intro v hv0 hv
    rcases List.mem_append.mp hv with h | h
    · rw [mem_lift_all] at h
      rcases h with ⟨i, _, h | h⟩ | h <;> cases h
      omega
    · simp at h
  · intro hv
    rcases List.mem_append.mp hv with h | h
    · rw [mem_lift_all] at h
      rcases h with ⟨i, _, h | h⟩ | h <;> cases h
    · simp at h
  · rw [List.count_append]
    rw [List.count_eq_zero.mpr hsyn]
    rfl
  · rw [List.getLast?_append]
    rfl

/-- Palm blocking enabled, no inversion. -/
def cfg5 : Config :=
  { touch_disable_on_palm := true, invert_x := false, invert_y := false }

/-- Enabled state tracking index 5 with single-touch pointer 7. -/
def s5 : TouchState :=
  { current := [5], last := [], lift := [], single_index := 7, enabled := true }

/-- A single invalid contact with index 5. -/
def cs5 : List Contact :=
  [{ index := some 5, valid := some false, stable := none, mean := (0, 0),
     size := (0, 0), orientation := 0 }]

/-- Witness for C5: with palm blocking on and an invalid contact, index 5 is
lifted, the single-touch pointer is lifted, no touch-down is emitted and the
selection state keeps the value 7. -/
theorem C5_palm_blocked_witness :
    (TouchDevice.update cfg5 p0 s5 cs5).1.single_index = 7
    ∧ Event.absMtSlot 5 ∈ (TouchDevice.update cfg5 p0 s5 cs5).2
    ∧ Event.btnTouch 0 ∈ (TouchDevice.update cfg5 p0 s5 cs5).2
    ∧ Event.btnTouch 1 ∉ (TouchDevice.update cfg5 p0 s5 cs5).2
    ∧ (TouchDevice.update cfg5 p0 s5 cs5).2.count Event.syn = 1 := by
  have h := C5_palm_blocked cfg5 p0 s5 cs5 rfl rfl
    ⟨_, List.mem_singleton.mpr rfl, rfl⟩
  refine ⟨h.2.1, ?_, h.2.2.2.1, h.2.2.2.2.2.2.1, h.2.2.2.2.2.2.2.1⟩
  exact (h.2.2.1 5 (Or.inl (by decide))).1

/-! ## Helper lemmas for the active frame path -/

/-- Whether an event belongs to the multitouch protocol family. -/
def isMtEvent : Event → Bool
  | Event.absMtSlot _ => true
  | Event.absMtTrackingId _ => true
  | Event.absMtPositionX _ => true
  | Event.absMtPositionY _ => true
  | Event.absMtOrientation _ => true
  | Event.absMtTouchMajor _ => true
  | Event.absMtTouchMinor _ => true
  | _ => false

theorem mt_contact_events_isMt (cfg : Config) (p : Params) (c : Contact) :
    ∀ e ∈ TouchDevice.mt_contact_events cfg p c, isMtEvent e = true := by
  intro e he
  unfold TouchDevice.mt_contact_events at he
  split at he
  · cases he
  · split at he
    · cases he
    · split at he
      · simp only [TouchDevice.emit_multitouch, List.mem_cons, List.not_mem_nil,
          or_false] at he
        rcases he with rfl | rfl | rfl | rfl | rfl | rfl | rfl <;> rfl
      · simp only [TouchDevice.lift_multitouch, List.mem_cons, List.not_mem_nil,
          or_false] at he
        rcases he with rfl | rfl <;> rfl

theorem process_multitouch_isMt (cfg : Config) (p : Params) (s : TouchState)
    (contacts : List Contact) :
    ∀ e ∈ TouchDevice.process_multitouch cfg p s contacts, isMtEvent e = true := by
  intro e he
  unfold TouchDevice.process_multitouch at he
  rcases List.mem_append.mp he with h | h
  · rcases List.mem_flatten.mp h with ⟨l, hl, hmem⟩
    rcases List.mem_map.mp hl with ⟨c, _, rfl⟩
    exact mt_contact_events_isMt cfg p c e hmem
  · rcases List.mem_flatten.mp h with ⟨l, hl, hmem⟩
    rcases List.mem_map.mp hl with ⟨i, _, rfl⟩
    unfold TouchDevice.lift_multitouch at hmem
    simp only [List.mem_cons, List.not_mem_nil, or_false] at hmem
    rcases hmem with rfl | rfl <;> rfl

/-- If no contact carries the selected index, the first singletouch loop
falls through without emitting. -/
theorem st_loop1_no_match (e : Bool) (single : ℕ) (contacts : List Contact)
    (h : ∀ c ∈ contacts, c.index ≠ some single) :
    TouchDevice.st_loop1 e single contacts = TouchDevice.STOutcome.fallthrough := by
  induction contacts with
  | nil => rfl
  | cons c rest ih =>
    rw [TouchDevice.st_loop1, if_pos (h c (List.mem_cons_self c rest))]
    exact ih (fun x hx => h x (List.mem_cons_of_mem c hx))

/-- In the per-frame pipeline (state refreshed by `search_lifted`), the
singletouch pass always emits exactly the single-touch lift: the emit loop
runs only when the selected index is in the lift set, where no incoming
contact can match it. -/
theorem st_update_events_lift (cfg : Config) (p : Params) (s : TouchState)
    (contacts : List Contact) :
    (TouchDevice.process_singletouch cfg p
        (TouchDevice.search_lifted s contacts) contacts).2
      = TouchDevice.lift_singletouch := by
  rw [TouchDevice.process_singletouch_events]
  unfold TouchDevice.st_events
  cases hc : (TouchDevice.search_lifted s contacts).lift.contains
      (TouchDevice.search_lifted s contacts).single_index with
  | false => rfl
  | true =>
    have hmem : (TouchDevice.search_lifted s contacts).single_index
        ∈ (TouchDevice.search_lifted s contacts).lift :=
      List.mem_of_elem_eq_true hc
    have hnc := ((mem_setDiff _ _ _).mp hmem).2
    have hall : ∀ c ∈ contacts,
        c.index ≠ some (TouchDevice.search_lifted s contacts).single_index := by
      intro c hcm hidx
      exact hnc ((mem_buildSet _ _).mpr (List.mem_filterMap.mpr ⟨c, hcm, hidx⟩))
    rw [st_loop1_no_match _ _ _ hall]
    rfl

/-- `update` on an enabled, unblocked frame: tracker refresh, multitouch
pass, singletouch pass, sync. -/
theorem update_active_eq (cfg : Config) (p : Params) (s : TouchState)
    (contacts : List Contact) (he : s.enabled = true)
    (hb : TouchDevice.is_blocked cfg contacts = false) :
    TouchDevice.update cfg p s contacts
      = ((TouchDevice.process_singletouch cfg p
            (TouchDevice.search_lifted s contacts) contacts).1,
         TouchDevice.process_multitouch cfg p
             (TouchDevice.search_lifted s contacts) contacts
           ++ (TouchDevice.process_singletouch cfg p
                (TouchDevice.search_lifted s contacts) contacts).2
           ++ [Event.syn]) := by
  unfold TouchDevice.update
  simp [he, hb, TouchDevice.sync]

/-- Enabled state already tracking contact 3, with the single-touch pointer
on index 3 (the state the spec's continuity scenario assumes). -/
def sC6 : TouchState :=
  { current := [3], last := [3], lift := [], single_index := 3, enabled := true }

/-- A present, valid, stable contact with index 3. -/
def cC6 : Contact :=
  { index := some 3, valid := some true, stable := some true,
    mean := (1 / 2, 1 / 2), size := (0, 0), orientation := 0 }

/-- Claim C6: the code cannot emit a single-touch down event from `update`
at all — the guard before the emit loop is inverted, so the loop runs only
when the selected index is in the lift set, where no contact can match.  On
the spec's continuity scenario (contact 3 valid and stable for 10
consecutive frames, already selected) the code emits zero `BTN_TOUCH 1`
events and one `BTN_TOUCH 0` lift per frame, instead of the claimed one
down update per frame with no lift. -/
theorem C6_singletouch_down_unreachable (cfg : Config) (p : Params)
    (s : TouchState) (contacts : List Contact) :
    Event.btnTouch 1 ∉ (TouchDevice.update cfg p s contacts).2
    ∧ ((TouchDevice.runFrames cfg0 p0 sC6 (List.replicate 10 [cC6])).2.map
        (fun evs => evs.count (Event.btnTouch 1))) = List.replicate 10 0
    ∧ ((TouchDevice.runFrames cfg0 p0 sC6 (List.replicate 10 [cC6])).2.map
        (fun evs => evs.count (Event.btnTouch 0))) = List.replicate 10 1 := by
  refine ⟨?_, by decide, by decide⟩
  by_cases he : s.enabled = true
  · by_cases hb : TouchDevice.is_blocked cfg contacts = true
    · rw [update_blocked_eq cfg p s contacts he hb]
      intro h
      rcases List.mem_append.mp h with h | h
      · rw [mem_lift_all] at h
        rcases h with ⟨i, _, h | h⟩ | h <;> cases h
      · simp at h
    · have hb2 : TouchDevice.is_blocked cfg contacts = false := by
        simpa using hb
      rw [update_active_eq cfg p s contacts he hb2, st_update_events_lift]
      intro h
      rcases List.mem_append.mp h with h | h
      · rcases List.mem_append.mp h with h | h
        · have hmt := process_multitouch_isMt cfg p
            (TouchDevice.search_lifted s contacts) contacts _ h
          simp [isMtEvent] at hmt
        · simp [TouchDevice.lift_singletouch] at h
      · simp at h
  · have he2 : s.enabled = false := by simpa using he
    simp [TouchDevice.update, he2]

/-- Claim C7: for every configuration, an inverted axis reports the rounded
scaling of 1 minus the coordinate and a non-inverted axis the rounded
scaling of the coordinate itself (both axes covered), and the emitted
orientation is `round((1 − orientation) · 180)` exactly when one and only
one of the two inversion flags is set — with both or neither set it is
`round(orientation · 180)`. -/
theorem C7_inverted_axis (cfg : Config) (p : Params) (c : Contact) :
    (cfg.invert_x = true →
      Event.absMtPositionX (cround ((1 - c.mean.1) * p.maxX))
        ∈ TouchDevice.emit_multitouch cfg p c)
    ∧ (cfg.invert_x = false →
      Event.absMtPositionX (cround (c.mean.1 * p.maxX))
        ∈ TouchDevice.emit_multitouch cfg p c)
    ∧ (cfg.invert_y = true →
      Event.absMtPositionY (cround ((1 - c.mean.2) * p.maxY))
        ∈ TouchDevice.emit_multitouch cfg p c)
    ∧ (cfg.invert_y = false →
      Event.absMtPositionY (cround (c.mean.2 * p.maxY))
        ∈ TouchDevice.emit_multitouch cfg p c)
    ∧ ((cfg.invert_x = true ∧ cfg.invert_y = false)
        ∨ (cfg.invert_x = false ∧ cfg.invert_y = true) →
      Event.absMtOrientation (cround ((1 - c.orientation) * 180))
        ∈ TouchDevice.emit_multitouch cfg p c)
    ∧ (cfg.invert_x = cfg.invert_y →
      Event.absMtOrientation (cround (c.orientation * 180))
        ∈ TouchDevice.emit_multitouch cfg p c) := by
  refine ⟨?_, ?_, ?_, ?_, ?_, ?_⟩
  · intro hx
    simp [TouchDevice.emit_multitouch, hx]
  · intro hx
    simp [TouchDevice.emit_multitouch, hx]
  · intro hy
    simp [TouchDevice.emit_multitouch, hy]
  · intro hy
    simp [TouchDevice.emit_multitouch, hy]
  · rintro (⟨hx, hy⟩ | ⟨hx, hy⟩) <;>
      simp [TouchDevice.emit_multitouch, hx, hy]
  · intro h
    by_cases hx : cfg.invert_x = true
    · have hy : cfg.invert_y = true := h ▸ hx
      simp [TouchDevice.emit_multitouch, hx, hy]
    · have hx2 : cfg.invert_x = false := by simpa using hx
      have hy : cfg.invert_y = false := h ▸ hx2
      simp [TouchDevice.emit_multitouch, hx2, hy]

/-- The spec's inversion scenario configuration: `invert_x`, not `invert_y`. -/
def cfg7 : Config :=
  { touch_disable_on_palm := false, invert_x := true, invert_y := false }

/-- A contact at `mean = (0.25, 0.6)` with orientation 0.2. -/
def c7 : Contact :=
  { index := some 0, valid := none, stable := none, mean := (1 / 4, 3 / 5),
    size := (0, 0), orientation := 1 / 5 }

/-- Witness for C7 at `invert_x = true, invert_y = false`: the emitted X is
`round((1 − 0.25) · 1000) = 750`, the emitted (non-inverted) Y is
`round(0.6 · 1000) = 600`, and — exactly one flag set — the emitted
orientation is `round((1 − 0.2) · 180) = 144`. -/
theorem C7_inverted_axis_witness :
    Event.absMtPositionX 750 ∈ TouchDevice.emit_multitouch cfg7 p0 c7
    ∧ Event.absMtPositionY 600 ∈ TouchDevice.emit_multitouch cfg7 p0 c7
    ∧ Event.absMtOrientation 144 ∈ TouchDevice.emit_multitouch cfg7 p0 c7 := by
  have h := C7_inverted_axis cfg7 p0 c7
  refine ⟨?_, ?_, ?_⟩
  · have hv : cround ((1 - c7.mean.1) * p0.maxX) = 750 := by
      simp only [c7, p0]
      norm_num [cround]
    exact hv ▸ h.1 rfl
  · have hv : cround (c7.mean.2 * p0.maxY) = 600 := by
      simp only [c7, p0]
      norm_num [cround]
    exact hv ▸ h.2.2.2.1 rfl
  · have hv : cround ((1 - c7.orientation) * 180) = 144 := by
      simp only [c7]
      norm_num [cround]
    exact hv ▸ h.2.2.2.2.1 (Or.inl ⟨rfl, rfl⟩)

/-! ## Helper lemmas for slot/tracking-id pair extraction (claim C8) -/

theorem mtPairsAux_emit (cfg : Config) (p : Params) (c : Contact)
    (l : List Event) :
    mtPairsAux none (TouchDevice.emit_multitouch cfg p c ++ l)
      = (((c.index.getD 0 : ℕ) : ℤ), ((c.index.getD 0 : ℕ) : ℤ))
          :: mtPairsAux none l := rfl

theorem mtPairsAux_liftmt (i : ℤ) (l : List Event) :
    mtPairsAux none (TouchDevice.lift_multitouch i ++ l)
      = (i, -1) :: mtPairsAux none l := rfl

/-- The (slot, tracking id) pairs contributed by the per-contact pass of
`process_multitouch`: one active pair per stable valid indexed contact, one
lift pair per stable invalid indexed contact. -/
def contactPairs : List Contact → List (ℤ × ℤ)
  | [] => []
  | c :: rest =>
    (match c.index with
      | none => []
      | some i =>
        if !(c.stable.getD true) then []
        else if c.valid.getD true then [(((i : ℕ) : ℤ), ((i : ℕ) : ℤ))]
        else [(((i : ℕ) : ℤ), (-1 : ℤ))]) ++ contactPairs rest

theorem mtPairsAux_mt_pass (cfg : Config) (p : Params)
    (contacts : List Contact) (l : List Event) :
    mtPairsAux none
        ((contacts.map (TouchDevice.mt_contact_events cfg p)).flatten ++ l)
      = contactPairs contacts ++ mtPairsAux none l := by
  induction contacts with
  | nil => simp [contactPairs]
  | cons c rest ih =>
    rw [List.map_cons, List.flatten_cons, List.append_assoc, contactPairs]
    cases hix : c.index with
    | none =>
      have hmt : TouchDevice.mt_contact_events cfg p c = [] := by
        unfold TouchDevice.mt_contact_events
        rw [hix]
      rw [hmt, List.nil_append, ih]
      simp
    | some i =>
      by_cases hst : c.stable.getD true = true
      · by_cases hvl : c.valid.getD true = true
        · have hmt : TouchDevice.mt_contact_events cfg p c
              = TouchDevice.emit_multitouch cfg p c := by
            unfold TouchDevice.mt_contact_events
            rw [hix, hst, hvl]
            rfl
          rw [hmt, mtPairsAux_emit, ih, hix]
          simp [hst, hvl]
        · have hvl2 : c.valid.getD true = false := by simpa using hvl
          have hmt : TouchDevice.mt_contact_events cfg p c
              = TouchDevice.lift_multitouch ((i : ℕ) : ℤ) := by
            unfold TouchDevice.mt_contact_events
            rw [hix, hst, hvl2]
            rfl
          rw [hmt, mtPairsAux_liftmt, ih]
          simp [hst, hvl2]
      · have hst2 : c.stable.getD true = false := by simpa using hst
        have hmt : TouchDevice.mt_contact_events cfg p c = [] := by
          unfold TouchDevice.mt_contact_events
          rw [hix, hst2]
          rfl
        rw [hmt, List.nil_append, ih]
        simp [hst2]

theorem mtPairsAux_lift_pass (is : List ℕ) (l : List Event) :
    mtPairsAux none
        ((is.map (fun i => TouchDevice.lift_multitouch ((i : ℕ) : ℤ))).flatten ++ l)
      = is.map (fun i => (((i : ℕ) : ℤ), (-1 : ℤ))) ++ mtPairsAux none l := by
  induction is with
  | nil => simp
  | cons i rest ih =>
    rw [List.map_cons, List.flatten_cons, List.append_assoc, mtPairsAux_liftmt,
      ih, List.map_cons]
    rfl

theorem mem_contactPairs (q : ℤ × ℤ) (contacts : List Contact) :
    q ∈ contactPairs contacts ↔
      ∃ c ∈ contacts, ∃ i : ℕ, c.index = some i ∧ c.stable.getD true = true ∧
        ((c.valid.getD true = true ∧ q = (((i : ℕ) : ℤ), ((i : ℕ) : ℤ)))
          ∨ (c.valid.getD true = false ∧ q = (((i : ℕ) : ℤ), (-1 : ℤ)))) := by
  induction contacts with
  | nil => simp [contactPairs]
  | cons c rest ih =>
    rw [contactPairs, List.mem_append, ih]
    constructor
    · rintro (hq | ⟨c2, hc2, hrest⟩)
      · rcases hix : c.index with _ | i
        · rw [hix] at hq
          cases hq
        · rw [hix] at hq
          by_cases hst : c.stable.getD true = true
          · by_cases hvl : c.valid.getD true = true
            · simp only [hst, hvl, Bool.not_true, Bool.false_eq_true, if_false,
                if_true, List.mem_singleton] at hq
              exact ⟨c, List.mem_cons_self c rest, i, hix, hst, Or.inl ⟨hvl, hq⟩⟩
            · have hvl2 : c.valid.getD true = false := by simpa using hvl
              simp only [hst, hvl2, Bool.not_true, Bool.false_eq_true, if_false,
                List.mem_singleton] at hq
              exact ⟨c, List.mem_cons_self c rest, i, hix, hst, Or.inr ⟨hvl2, hq⟩⟩
          · have hst2 : c.stable.getD true = false := by simpa using hst
            simp only [hst2, Bool.not_false, if_true, List.not_mem_nil] at hq
      · exact ⟨c2, List.mem_cons_of_mem c hc2, hrest⟩
    · rintro ⟨c2, hc2, i, hix, hst, hcase⟩
      rcases List.mem_cons.mp hc2 with rfl | hc2r
      · left
        rw [hix]
        rcases hcase with ⟨hvl, rfl⟩ | ⟨hvl, rfl⟩
        · simp [hst, hvl]
        · simp [hst, hvl]
      · right
        exact ⟨c2, hc2r, i, hix, hst, hcase⟩

theorem nodup_filterMap_unique {α β : Type} (f : α → Option β) (l : List α)
    (hnd : (l.filterMap f).Nodup) (a b : α) (ha : a ∈ l) (hb : b ∈ l)
    (hab : a ≠ b) (i : β) (hfa : f a = some i) (hfb : f b = some i) :
    False := by
  induction l with
  | nil => cases ha
  | cons c rest ih =>
    rw [List.filterMap_cons] at hnd
    rcases List.mem_cons.mp ha with rfl | ha2
    · rcases List.mem_cons.mp hb with rfl | hb2
      · exact hab rfl
      · rw [hfa] at hnd
        exact (List.nodup_cons.mp hnd).1
          (List.mem_filterMap.mpr ⟨b, hb2, hfb⟩)
    · rcases List.mem_cons.mp hb with rfl | hb2
      · rw [hfb] at hnd
        exact (List.nodup_cons.mp hnd).1
          (List.mem_filterMap.mpr ⟨a, ha2, hfa⟩)
      · cases hfc : f c with
        | none =>
          rw [hfc] at hnd
          exact ih hnd ha2 hb2
        | some j =>
          rw [hfc] at hnd
          exact ih (List.nodup_cons.mp hnd).2 ha2 hb2

/-- On an enabled, unblocked frame the slot/tracking-id pairs of the emitted
event stream are exactly the per-contact pairs followed by one lift pair per
index in the tracker's lift set. -/
theorem mtPairs_update_active (cfg : Config) (p : Params) (s : TouchState)
    (contacts : List Contact) (he : s.enabled = true)
    (hb : TouchDevice.is_blocked cfg contacts = false) :
    mtPairs (TouchDevice.update cfg p s contacts).2
      = contactPairs contacts
        ++ (TouchDevice.search_lifted s contacts).lift.map
            (fun i => (((i : ℕ) : ℤ), (-1 : ℤ))) := by
  rw [update_active_eq cfg p s contacts he hb, st_update_events_lift]
  show mtPairsAux none _ = _
  unfold TouchDevice.process_multitouch
  simp only [List.append_assoc]
  rw [mtPairsAux_mt_pass, mtPairsAux_lift_pass]
  have htail : mtPairsAux none
      (TouchDevice.lift_singletouch ++ [Event.syn]) = [] := rfl
  rw [htail, List.append_nil]

/-- A fresh enabled state (nothing tracked). -/
def s8 : TouchState :=
  { current := [], last := [], lift := [], single_index := 1, enabled := true }

/-- A stable valid contact with index 0. -/
def c8a : Contact :=
  { index := some 0, valid := some true, stable := some true, mean := (0, 0),
    size := (0, 0), orientation := 0 }

/-- A stable invalid contact that also carries index 0. -/
def c8b : Contact :=
  { index := some 0, valid := some false, stable := some true, mean := (0, 0),
    size := (0, 0), orientation := 0 }

/-- Claim C8 counterexample: when the incoming list carries two contacts
with the same index 0 — one valid, one invalid — an enabled, unblocked
update emits tracking id 0 as active and also lifts slot 0 in the same
frame, so the two sets intersect. -/
theorem C8_counterexample :
    s8.enabled = true
    ∧ TouchDevice.is_blocked cfg0 [c8a, c8b] = false
    ∧ (0 : ℤ) ∈ activeIds (TouchDevice.update cfg0 p0 s8 [c8a, c8b]).2
    ∧ (0 : ℤ) ∈ liftSlots (TouchDevice.update cfg0 p0 s8 [c8a, c8b]).2 := by
  refine ⟨rfl, rfl, ?_, ?_⟩
  · rw [activeIds, mtPairs_update_active cfg0 p0 s8 [c8a, c8b] rfl rfl]
    decide
  · rw [liftSlots, mtPairs_update_active cfg0 p0 s8 [c8a, c8b] rfl rfl]
    decide

/-- Claim C8, amended: provided the tracking indices carried by the incoming
contacts are pairwise distinct (one record per physical contact), the set of
tracking ids emitted as active multi-touch updates in an enabled, unblocked
frame is disjoint from the set of slots emitted as multi-touch lifts
(immediate lifts of invalid contacts and lifts from the tracker's lift set
alike). -/
theorem C8_no_duplicate_slots (cfg : Config) (p : Params) (s : TouchState)
    (contacts : List Contact) (he : s.enabled = true)
    (hb : TouchDevice.is_blocked cfg contacts = false)
    (hnodup : (contacts.filterMap (fun c => c.index)).Nodup) :
    List.Disjoint (activeIds (TouchDevice.update cfg p s contacts).2)
      (liftSlots (TouchDevice.update cfg p s contacts).2) := by
  intro v hva hvb
  rw [activeIds, mtPairs_update_active cfg p s contacts he hb,
    List.filterMap_append] at hva
  rw [liftSlots, mtPairs_update_active cfg p s contacts he hb,
    List.filterMap_append] at hvb
  have hva2 : v ∈ (contactPairs contacts).filterMap
      (fun q => if 0 ≤ q.2 then some q.2 else none) := by
    rcases List.mem_append.mp hva with h | h
    · exact h
    · exfalso
      rcases List.mem_filterMap.mp h with ⟨q, hq, hf⟩
      rcases List.mem_map.mp hq with ⟨i, _, rfl⟩
      simp at hf
  rcases List.mem_filterMap.mp hva2 with ⟨q, hq, hf⟩
  have hq2 : 0 ≤ q.2 ∧ q.2 = v := by
    by_cases h0 : (0 : ℤ) ≤ q.2
    · rw [if_pos h0] at hf
      exact ⟨h0, Option.some_injective _ hf⟩
    · rw [if_neg h0] at hf
      cases hf
  rcases (mem_contactPairs q contacts).mp hq with ⟨c1, hc1, i1, hix1, hst1, hcase1⟩
  rcases hcase1 with ⟨hvl1, rfl⟩ | ⟨hvl1, rfl⟩
  swap
  · have h01 : (0 : ℤ) ≤ -1 := hq2.1
    omega
  have hv : ((i1 : ℕ) : ℤ) = v := hq2.2
  rcases List.mem_append.mp hvb with h | h
  · rcases List.mem_filterMap.mp h with ⟨q2, hq2m, hf2⟩
    have hq22 : q2.2 = -1 ∧ q2.1 = v := by
      by_cases hm : q2.2 = (-1 : ℤ)
      · rw [if_pos hm] at hf2
        exact ⟨hm, Option.some_injective _ hf2⟩
      · rw [if_neg hm] at hf2
        cases hf2
    rcases (mem_contactPairs q2 contacts).mp hq2m with
      ⟨c2, hc2, i2, hix2, hst2, hcase2⟩
    rcases hcase2 with ⟨hvl2, rfl⟩ | ⟨hvl2, rfl⟩
    · have hneg : ((i2 : ℕ) : ℤ) = -1 := hq22.1
      omega
    · have hi : ((i2 : ℕ) : ℤ) = ((i1 : ℕ) : ℤ) := by
        have h1 : ((i2 : ℕ) : ℤ) = v := by simpa using hq22.2
        omega
      have hii : i2 = i1 := by exact_mod_cast hi
      subst hii
      have hne : c1 ≠ c2 := by
        intro hcc
        rw [hcc, hvl2] at hvl1
        cases hvl1
      exact nodup_filterMap_unique (fun c => c.index) contacts hnodup c1 c2
        hc1 hc2 hne i2 hix1 hix2
  · rcases List.mem_filterMap.mp h with ⟨q2, hq2m, hf2⟩
    rcases List.mem_map.mp hq2m with ⟨i2, hi2, rfl⟩
    have hv2 : ((i2 : ℕ) : ℤ) = v := by simpa using hf2
    have hii : i2 = i1 := by
      have h1 : ((i2 : ℕ) : ℤ) = ((i1 : ℕ) : ℤ) := by omega
      exact_mod_cast h1
    subst hii
    have hlift_eq : (TouchDevice.search_lifted s contacts).lift
        = setDiff s.current
            (buildSet (contacts.filterMap (fun c => c.index))) := rfl
    rw [hlift_eq] at hi2
    have hnc := ((mem_setDiff _ _ _).mp hi2).2
    exact hnc ((mem_buildSet _ _).mpr (List.mem_filterMap.mpr ⟨c1, hc1, hix1⟩))

/-- Two contacts with distinct indices 0 and 1, the second invalid. -/
def cs8w : List Contact :=
  [c8a,
   { index := some 1, valid := some false, stable := some true, mean := (0, 0),
     size := (0, 0), orientation := 0 }]

/-- Witness for the amended C8 on a concrete frame with distinct indices. -/
theorem C8_no_duplicate_slots_witness :
    List.Disjoint (activeIds (TouchDevice.update cfg0 p0 s8 cs8w).2)
      (liftSlots (TouchDevice.update cfg0 p0 s8 cs8w).2) :=
  C8_no_duplicate_slots cfg0 p0 s8 cs8w rfl rfl (by decide)
